import Mathlib

/-!
Verification of the file-state exposure core of `monitor-dashboard.py`
(a pipeline monitoring dashboard).

The embedding models:
* the task data model (tasks with optional status and optional subtask lists),
* `getTaskStatus` (the per-task three-way status rollup, source lines 418-429),
* `updateStats` (the aggregate progress statistics, source lines 431-448),
* `serve_tasks_json` (the `/api/tasks` handler, source lines 519-535), with
  Python's `json.load` abstracted as an oracle classifying the tasks-file state
  into absent / malformed (parse raises) / parsed,
* `serve_logs` (the `/api/logs` handler, source lines 537-554), with the log
  file content modelled as a character list and Python's `readlines` embedded
  directly (`pyReadlines`).

Statuses are modelled by the three-valued enum of the data model; an absent
`status` field is `Option.none`.  JavaScript's `Math.round` is modelled as
exact round-half-up on rationals.
-/

namespace Monitor

/-- The status enum of the data model: `pending`, `in-progress`, `complete`. -/
inductive Status where
  | pending
  | inProgress
  | complete
  deriving DecidableEq, Repr

/-- A subtask: `id`, `title`, and an optional `status` field
(absent in the JSON is `none`). -/
structure Subtask where
  id : Nat
  title : String
  status : Option Status
  deriving DecidableEq, Repr

/-- A top-level task: `id`, `name`, optional `status`, optional `subtasks`. -/
structure Task where
  id : Nat
  name : String
  status : Option Status
  subtasks : Option (List Subtask)
  deriving DecidableEq, Repr

/-- `getTaskStatus(task)` from the source (lines 418-429):
if `!task.subtasks || task.subtasks.length === 0` return
`task.status || 'pending'`; otherwise `complete` if every subtask's status is
`'complete'`, else `in-progress` if some subtask's status is `'in-progress'`,
else `pending`. -/
def getTaskStatus (t : Task) : Status :=
  match t.subtasks with
  | none => t.status.getD Status.pending
  | some subs =>
    if subs.length = 0 then
      t.status.getD Status.pending
    else
      let allComplete := subs.all (fun st => decide (st.status = some Status.complete))
      let anyInProgress := subs.any (fun st => decide (st.status = some Status.inProgress))
      if allComplete then Status.complete
      else if anyInProgress then Status.inProgress
      else Status.pending

/-- The four aggregate statistics computed by `updateStats`. -/
structure Stats where
  totalTasks : Nat
  totalSubtasks : Nat
  completedSubtasks : Nat
  progressPercent : Int
  deriving DecidableEq, Repr

/-- JavaScript `Math.round`: round half up (towards positive infinity),
modelled exactly on rationals. -/
def mathRound (q : ℚ) : ℤ := ⌊q + 1/2⌋

/-- `updateStats(tasks)` from the source (lines 431-448):
`totalTasks = tasks.length`;
`totalSubtasks = tasks.reduce((sum, task) => sum + (task.subtasks?.length || 0), 0)`;
`completedSubtasks` accumulated with
`if (task.subtasks) completedSubtasks += task.subtasks.filter(st => st.status === 'complete').length`;
`progress = totalSubtasks > 0 ? Math.round((completedSubtasks / totalSubtasks) * 100) : 0`. -/
def updateStats (tasks : List Task) : Stats :=
  let totalTasks := tasks.length
  let totalSubtasks : Nat := tasks.foldl
    (fun sum t => sum + (match t.subtasks with | some l => l.length | none => 0)) 0
  let completedSubtasks : Nat := tasks.foldl
    (fun acc t =>
      match t.subtasks with
      | some l => acc + (l.filter (fun st => decide (st.status = some Status.complete))).length
      | none => acc) 0
  let progress : Int :=
    if totalSubtasks > 0 then
      mathRound (((completedSubtasks : ℚ) / (totalSubtasks : ℚ)) * 100)
    else 0
  ⟨totalTasks, totalSubtasks, completedSubtasks, progress⟩

/-- The `"master"` entry of the tasks document: `{"tasks": [...]}`. -/
structure MasterList where
  tasks : List Task
  deriving DecidableEq, Repr

/-- The tasks document: `{"master": {"tasks": [...]}}`. -/
structure TaskDocument where
  master : MasterList
  deriving DecidableEq, Repr

/-- The canonical empty document `{"master": {"tasks": []}}` used as the
fallback in `serve_tasks_json`. -/
def emptyDocument : TaskDocument := ⟨⟨[]⟩⟩

/-- State of the tasks file as observed by `serve_tasks_json`:
the file is absent (`os.path.exists` false), or it exists but `json.load`
raises (malformed content, e.g. the file contains only a brace),
or it exists and parses to a document. -/
inductive TasksFileState where
  | absent
  | malformed
  | parsed (d : TaskDocument)
  deriving DecidableEq, Repr

/-- An HTTP response of the `/api/tasks` handler: a status code, and the JSON
document body when the response is a success (an error response produced by
`send_error` carries no document). -/
structure TasksResponse where
  code : Nat
  body : Option TaskDocument
  deriving DecidableEq, Repr

/-- `serve_tasks_json` from the source (lines 519-535):
inside `try`, if the file exists its content is parsed with `json.load`
(raising on malformed content), otherwise the fallback
`{"master": {"tasks": []}}` is used; then a 200 response with the JSON body is
sent.  Any exception — in particular a `json.load` parse failure — is caught
by the `except` clause, which sends `send_error(500, ...)`. -/
def serve_tasks_json : TasksFileState → TasksResponse
  | TasksFileState.absent => ⟨200, some emptyDocument⟩
  | TasksFileState.parsed d => ⟨200, some d⟩
  | TasksFileState.malformed => ⟨500, none⟩

/-- Python `readlines` on a text file's character content, splitting after
every newline character and keeping a final newline-less segment as a last
line.  `acc` is the reversed prefix of the current line. -/
def pyReadlinesAux : List Char → List Char → List (List Char)
  | [], acc => if acc.isEmpty then [] else [acc.reverse]
  | c :: rest, acc =>
    if c = '\n' then (acc.reverse ++ [c]) :: pyReadlinesAux rest []
    else pyReadlinesAux rest (c :: acc)

/-- Python `f.readlines()` on content `s`. -/
def pyReadlines (s : List Char) : List (List Char) := pyReadlinesAux s []

/-- The tail operation of the logs handler, generalised over the window size:
`lines = f.readlines(); lines[-maxLines:]`.  Python's `lines[-n:]` is the
whole list when there are at most `n` lines, and the last `n` lines
otherwise; both cases are `List.drop (lines.length - n)`. -/
def tailLines (s : List Char) (maxLines : Nat) : List (List Char) :=
  let lines := pyReadlines s
  lines.drop (lines.length - maxLines)

/-- An HTTP response of the `/api/logs` handler: status code and plain-text
body (as a character list). -/
structure LogsResponse where
  code : Nat
  body : List Char
  deriving DecidableEq, Repr

/-- `serve_logs` from the source (lines 537-554): if the log file exists,
`lines = f.readlines(); last_lines = ''.join(lines[-100:])`; otherwise
`last_lines = "No logs available yet.\n"`; then a 200 response with
`last_lines` as the plain-text body is sent.  The file content is modelled as
`Option (List Char)` (`none` when the file is absent). -/
def serve_logs : Option (List Char) → LogsResponse
  | some s => ⟨200, (tailLines s 100).flatten⟩
  | none => ⟨200, ("No logs available yet.\n").data⟩

/-- The observable file state behind one request: the tasks file (as seen
through `os.path.exists` plus `json.load`, which is deterministic in the byte
content) and the log file content. -/
structure FileState where
  tasksFile : TasksFileState
  logFile : Option (List Char)
  deriving DecidableEq, Repr

/-- `tasksSnapshot` of the spec: the get-tasks operation as a function of the
file state; it reads only the tasks file. -/
def tasksSnapshot (fs : FileState) : TasksResponse := serve_tasks_json fs.tasksFile

/-- `logsSnapshot` of the spec: the get-logs operation as a function of the
file state; it reads only the log file. -/
def logsSnapshot (fs : FileState) : LogsResponse := serve_logs fs.logFile

/-- A complete log line: nonempty, ends with a newline character, and has no
newline before the last character. -/
def lineComplete (l : List Char) : Bool :=
  !l.isEmpty && l.getLast? == some '\n' && l.dropLast.all (fun c => decide (c ≠ '\n'))

/-- Spec-side closed form: the length of a task's subtask list, absent
treated as zero (the per-task summand of `totalSubtasks`). -/
def subCount (t : Task) : Nat :=
  match t.subtasks with | some l => l.length | none => 0

/-- Spec-side closed form: the number of a task's subtasks whose status is
`complete`, absent list treated as zero (the per-task summand of
`completedSubtasks`). -/
def compCount (t : Task) : Nat :=
  match t.subtasks with
  | some l => (l.filter (fun st => decide (st.status = some Status.complete))).length
  | none => 0

/-- Folding `fun s a => s + g a` over a list sums `g` over the list. -/
theorem foldl_add_eq_sum {α : Type} (g : α → Nat) :
    ∀ (l : List α) (n : Nat), l.foldl (fun s a => s + g a) n = n + (l.map g).sum := by
  intro l
  induction l with
  | nil => intro n; simp
  | cons a l ih => intro n; simp [ih, Nat.add_assoc]

/-- The `totalSubtasks` fold of `updateStats` in closed form. -/
theorem total_foldl_eq (tasks : List Task) :
    tasks.foldl
      (fun sum t => sum + (match t.subtasks with | some l => l.length | none => 0)) 0
      = (tasks.map subCount).sum := by
  have hfun : (fun (sum : Nat) (t : Task) =>
      sum + (match t.subtasks with | some l => l.length | none => 0)) =
      fun s t => s + subCount t := rfl
  rw [hfun, foldl_add_eq_sum]
  simp

/-- The `completedSubtasks` fold of `updateStats` in closed form
(skipping a task with absent subtasks is the same as adding zero). -/
theorem completed_foldl_eq (tasks : List Task) :
    tasks.foldl
      (fun acc t =>
        match t.subtasks with
        | some l =>
            acc + (l.filter (fun st => decide (st.status = some Status.complete))).length
        | none => acc) 0
      = (tasks.map compCount).sum := by
  have hfun : (fun (acc : Nat) (t : Task) =>
      match t.subtasks with
      | some l =>
          acc + (l.filter (fun st => decide (st.status = some Status.complete))).length
      | none => acc) = fun acc t => acc + compCount t := by
    funext acc t
    cases h : t.subtasks <;> simp [compCount, h]
  rw [hfun, foldl_add_eq_sum]
  simp

/-- `updateStats` in closed form over the spec-side per-task counts. -/
theorem updateStats_eq (tasks : List Task) :
    updateStats tasks =
      { totalTasks := tasks.length
        totalSubtasks := (tasks.map subCount).sum
        completedSubtasks := (tasks.map compCount).sum
        progressPercent :=
          if 0 < (tasks.map subCount).sum then
            mathRound (((tasks.map compCount).sum : ℚ) /
              ((tasks.map subCount).sum : ℚ) * 100)
          else 0 } := by
  simp only [updateStats, total_foldl_eq, completed_foldl_eq]

/- ## Theorems for the claims -/

/-- **C3.**  `getTaskStatus` computes the three-way rollup with the fixed
tie-break order: with absent or empty subtasks it returns the task's own
status (defaulting to `pending` when absent); with a non-empty subtask list it
returns `complete` exactly when every subtask's status is `complete`, else
`in-progress` exactly when some subtask's status is `in-progress`, else
`pending`.  In particular a task with zero subtasks and status `pending` does
not report `complete`. -/
theorem getTaskStatus_rollup (t : Task) :
    ((t.subtasks = none ∨ t.subtasks = some []) →
      getTaskStatus t = t.status.getD Status.pending) ∧
    (∀ subs : List Subtask, t.subtasks = some subs → subs ≠ [] →
      ((getTaskStatus t = Status.complete ↔
          ∀ st ∈ subs, st.status = some Status.complete) ∧
       (getTaskStatus t = Status.inProgress ↔
          (¬ ∀ st ∈ subs, st.status = some Status.complete) ∧
          ∃ st ∈ subs, st.status = some Status.inProgress) ∧
       (getTaskStatus t = Status.pending ↔
          (¬ ∀ st ∈ subs, st.status = some Status.complete) ∧
          ¬ ∃ st ∈ subs, st.status = some Status.inProgress))) ∧
    ((t.subtasks = none ∨ t.subtasks = some []) →
      t.status = some Status.pending → getTaskStatus t ≠ Status.complete) := by
  refine ⟨?_, ?_, ?_⟩
  · rintro (h | h) <;> simp [getTaskStatus, h]
  · intro subs hsub hne
    have hlen : ¬ subs.length = 0 := by simpa using hne
    by_cases hall : ∀ st ∈ subs, st.status = some Status.complete
    · have hallb : subs.all (fun st => decide (st.status = some Status.complete)) = true := by
        simpa [List.all_eq_true] using hall
      have hres : getTaskStatus t = Status.complete := by
        simp [getTaskStatus, hsub, hlen, hallb]
      rw [hres]
      refine ⟨⟨fun _ => hall, fun _ => rfl⟩, ⟨fun h => ?_, fun h => absurd hall h.1⟩,
        ⟨fun h => ?_, fun h => absurd hall h.1⟩⟩ <;> simp at h
    · have hallb : subs.all (fun st => decide (st.status = some Status.complete)) = false := by
        rw [← Bool.not_eq_true]
        simpa [List.all_eq_true] using hall
      by_cases hany : ∃ st ∈ subs, st.status = some Status.inProgress
      · have hanyb : subs.any (fun st => decide (st.status = some Status.inProgress)) = true := by
          simpa [List.any_eq_true] using hany
        have hres : getTaskStatus t = Status.inProgress := by
          simp [getTaskStatus, hsub, hlen, hallb, hanyb]
        rw [hres]
        refine ⟨⟨fun h => ?_, fun h => absurd h hall⟩, ⟨fun _ => ⟨hall, hany⟩, fun _ => rfl⟩,
          ⟨fun h => ?_, fun h => absurd hany h.2⟩⟩ <;> simp at h
      · have hanyb : subs.any (fun st => decide (st.status = some Status.inProgress)) = false := by
          rw [← Bool.not_eq_true]
          simpa [List.any_eq_true] using hany
        have hres : getTaskStatus t = Status.pending := by
          simp [getTaskStatus, hsub, hlen, hallb, hanyb]
        rw [hres]
        refine ⟨⟨fun h => ?_, fun h => absurd h hall⟩, ⟨fun h => ?_, fun h => absurd h.2 hany⟩,
          ⟨fun _ => ⟨hall, hany⟩, fun _ => rfl⟩⟩ <;> simp at h
  · rintro (h | h) hp <;> simp [getTaskStatus, h, hp]

/-- Witness for C3: a task with zero subtasks and own status `pending` rolls
up to `pending` (not `complete`); a task with one `complete` subtask rolls up
to `complete`. -/
theorem getTaskStatus_rollup_witness :
    getTaskStatus { id := 2, name := "B", status := some Status.pending,
                    subtasks := some [] } = Status.pending ∧
    getTaskStatus { id := 1, name := "A", status := none,
                    subtasks := some [⟨1, "x", some Status.complete⟩] } =
      Status.complete := by
  constructor
  · have h := (getTaskStatus_rollup
      ⟨2, "B", some Status.pending, some []⟩).1 (Or.inr rfl)
    simpa using h
  · have h := ((getTaskStatus_rollup
      ⟨1, "A", none, some [⟨1, "x", some Status.complete⟩]⟩).2.1
      [⟨1, "x", some Status.complete⟩] rfl (by decide)).1
    exact h.mpr (by decide)

/-- **C4.**  `updateStats` returns: `totalTasks` = list length;
`totalSubtasks` = sum of subtask-list lengths (absent as zero);
`completedSubtasks` = count of subtasks with status `complete`;
`progressPercent` = round(completed / total × 100), defined as 0 when
`totalSubtasks` is 0; and the empty list yields all-zero stats. -/
theorem updateStats_correct (tasks : List Task) :
    (updateStats tasks).totalTasks = tasks.length ∧
    (updateStats tasks).totalSubtasks = (tasks.map subCount).sum ∧
    (updateStats tasks).completedSubtasks = (tasks.map compCount).sum ∧
    (updateStats tasks).progressPercent =
      (if (tasks.map subCount).sum = 0 then 0
       else mathRound (((tasks.map compCount).sum : ℚ) /
         ((tasks.map subCount).sum : ℚ) * 100)) ∧
    updateStats [] = ⟨0, 0, 0, 0⟩ := by
  rw [updateStats_eq]
  refine ⟨rfl, rfl, rfl, ?_, by decide⟩
  rcases Nat.eq_zero_or_pos (tasks.map subCount).sum with h | h
  · simp [h]
  · rw [if_pos h, if_neg (Nat.pos_iff_ne_zero.mp h)]

/-- **C7.**  For every task list, `completedSubtasks ≤ totalSubtasks`:
each per-task completed count is the length of a filtered sublist of that
task's subtask list. -/
theorem completed_le_total (tasks : List Task) :
    (updateStats tasks).completedSubtasks ≤ (updateStats tasks).totalSubtasks := by
  rw [updateStats_eq]
  show (tasks.map compCount).sum ≤ (tasks.map subCount).sum
  refine List.sum_le_sum ?_
  intro t _
  cases h : t.subtasks with
  | none => simp [compCount, subCount, h]
  | some l => simpa [compCount, subCount, h] using List.length_filter_le _ l

/-- **C10.**  A subtask with an absent status field is neither `complete` nor
`in-progress` anywhere: appending it to a task's subtask list raises
`totalSubtasks` by one and leaves `completedSubtasks` unchanged; it fails the
all-complete check (so the rollup is never `complete` with it present) and
fails the any-in-progress check; a non-empty subtask list whose statuses are
all absent rolls up to `pending`. -/
theorem absent_status_neutral (t : Task) (l : List Subtask) (st : Subtask)
    (hsub : t.subtasks = some l) (hst : st.status = none) :
    (updateStats [{ t with subtasks := some (l ++ [st]) }]).totalSubtasks =
      (updateStats [t]).totalSubtasks + 1 ∧
    (updateStats [{ t with subtasks := some (l ++ [st]) }]).completedSubtasks =
      (updateStats [t]).completedSubtasks ∧
    decide (st.status = some Status.complete) = false ∧
    decide (st.status = some Status.inProgress) = false ∧
    getTaskStatus { t with subtasks := some (l ++ [st]) } ≠ Status.complete ∧
    ((∀ s ∈ l, s.status = none) →
      getTaskStatus { t with subtasks := some (l ++ [st]) } = Status.pending) := by
  have hallb : (l ++ [st]).all (fun s => decide (s.status = some Status.complete)) = false := by
    simp [List.all_append, hst]
  have hlen : ¬ ((l ++ [st]).length = 0) := by simp
  refine ⟨?_, ?_, by simp [hst], by simp [hst], ?_, ?_⟩
  · simp only [updateStats_eq]
    simp [subCount, hsub]
  · simp only [updateStats_eq]
    simp [compCount, hsub, List.filter_append, hst]
  · cases hany : (l ++ [st]).any (fun s => decide (s.status = some Status.inProgress)) with
    | true => simp [getTaskStatus, hlen, hallb, hany]
    | false => simp [getTaskStatus, hlen, hallb, hany]
  · intro hall
    have hanyb : (l ++ [st]).any (fun s => decide (s.status = some Status.inProgress)) = false := by
      rw [← Bool.not_eq_true]
      simp [List.any_eq_true, hst]
      intro s hs
      simp [hall s hs]
    simp [getTaskStatus, hlen, hallb, hanyb]

/-- Witness for C10: appending a status-less subtask to a one-subtask task
raises the subtask total from 1 to 2, keeps the completed count, and the
all-absent two-subtask task rolls up to `pending`. -/
theorem absent_status_neutral_witness :
    (updateStats [{ id := 1, name := "A", status := none,
                    subtasks := some [⟨1, "x", none⟩, ⟨2, "y", none⟩] }]).totalSubtasks =
      (updateStats [{ id := 1, name := "A", status := none,
                      subtasks := some [⟨1, "x", none⟩] }]).totalSubtasks + 1 ∧
    (updateStats [{ id := 1, name := "A", status := none,
                    subtasks := some [⟨1, "x", none⟩, ⟨2, "y", none⟩] }]).completedSubtasks =
      (updateStats [{ id := 1, name := "A", status := none,
                      subtasks := some [⟨1, "x", none⟩] }]).completedSubtasks ∧
    getTaskStatus { id := 1, name := "A", status := none,
                    subtasks := some [⟨1, "x", none⟩, ⟨2, "y", none⟩] } = Status.pending := by
  have h := absent_status_neutral
    { id := 1, name := "A", status := none, subtasks := some [⟨1, "x", none⟩] }
    [⟨1, "x", none⟩] ⟨2, "y", none⟩ rfl rfl
  exact ⟨h.1, h.2.1, h.2.2.2.2.2 (by decide)⟩

/- ## Response-level theorems -/

/-- **C1, counterexample.**  The claim says a tasks file that exists but fails
to parse as JSON yields the empty-document fallback and never an error.  On
the code, `json.load`'s exception is caught by the `except` clause of
`serve_tasks_json`, which sends `send_error(500, ...)`: at the concrete input
"file exists with content `{`" (a parse failure), the response is a 500 error
and not the 200 empty-document response. -/
theorem serve_tasks_json_malformed_not_fallback :
    serve_tasks_json TasksFileState.malformed = ⟨500, none⟩ ∧
    serve_tasks_json TasksFileState.malformed ≠ ⟨200, some emptyDocument⟩ := by
  exact ⟨rfl, by decide⟩

/-- **C1, amended.**  When the tasks file exists but its content fails to
parse as JSON, the get-tasks operation responds with an HTTP 500 error (the
parse failure is not absorbed); the empty-document fallback
`{"master": {"tasks": []}}` is returned only when the file is absent. -/
theorem serve_tasks_json_malformed_is_500 :
    serve_tasks_json TasksFileState.malformed = ⟨500, none⟩ ∧
    serve_tasks_json TasksFileState.absent =
      ⟨200, some { master := { tasks := [] } }⟩ :=
  ⟨rfl, rfl⟩

/-- **C2.**  When the tasks file does not exist, the get-tasks operation
returns the canonical empty document `{"master": {"tasks": []}}` with a
success status (200); absence is not an error. -/
theorem serve_tasks_json_absent_returns_empty :
    serve_tasks_json TasksFileState.absent =
      ⟨200, some { master := { tasks := [] } }⟩ ∧
    (serve_tasks_json TasksFileState.absent).code = 200 :=
  ⟨rfl, rfl⟩

/-- **C6.**  The get-logs operation never fails: every file state yields a
200 response, and when the log file is absent the body is the placeholder
line `"No logs available yet.\n"` (the placeholder text as a
newline-terminated line), not an error. -/
theorem serve_logs_never_fails :
    (∀ c : Option (List Char), (serve_logs c).code = 200) ∧
    serve_logs none = ⟨200, ("No logs available yet.\n").data⟩ := by
  refine ⟨fun c => ?_, rfl⟩
  cases c <;> rfl

/-- **C8.**  The get-tasks snapshot is deterministic in the tasks-file state:
two invocations with identical tasks-file existence and content (hence an
identical `json.load` outcome) return identical results, even if the rest of
the file state (the log file) differs; `updateStats` and `getTaskStatus` are
pure functions and return identical outputs on identical inputs. -/
theorem tasksSnapshot_deterministic (fs1 fs2 : FileState)
    (h : fs1.tasksFile = fs2.tasksFile) :
    tasksSnapshot fs1 = tasksSnapshot fs2 ∧
    (∀ l : List Task, updateStats l = updateStats l) ∧
    (∀ t : Task, getTaskStatus t = getTaskStatus t) := by
  refine ⟨?_, fun _ => rfl, fun _ => rfl⟩
  simp only [tasksSnapshot, h]

/-- Witness for C8: two file states agreeing on the tasks file (absent) but
differing on the log file yield the same get-tasks snapshot. -/
theorem tasksSnapshot_deterministic_witness :
    tasksSnapshot ⟨TasksFileState.absent, none⟩ =
      tasksSnapshot ⟨TasksFileState.absent, some ("x").data⟩ :=
  (tasksSnapshot_deterministic ⟨TasksFileState.absent, none⟩
    ⟨TasksFileState.absent, some ("x").data⟩ rfl).1

/-- **C9.**  For a task whose subtask list is present and non-empty, the
task's own `status` field has no effect on `getTaskStatus`: changing it to
any value (or removing it) leaves the rollup unchanged. -/
theorem getTaskStatus_ignores_own_status (t : Task) (subs : List Subtask)
    (hsub : t.subtasks = some subs) (hne : subs ≠ [])
    (s1 s2 : Option Status) :
    getTaskStatus { t with status := s1 } = getTaskStatus { t with status := s2 } := by
  have hlen : ¬ subs.length = 0 := by simpa using hne
  simp [getTaskStatus, hsub, hlen]

/-- `pyReadlinesAux` closes the current line at the first newline: scanning
`l ++ '\n' :: rest` (with no newline in `l`) emits the accumulated prefix
plus `l` plus the newline as one line, then scans `rest` afresh. -/
theorem pyReadlinesAux_newline :
    ∀ (l acc rest : List Char), (∀ c ∈ l, c ≠ '\n') →
      pyReadlinesAux (l ++ '\n' :: rest) acc =
        (acc.reverse ++ (l ++ ['\n'])) :: pyReadlinesAux rest [] := by
  intro l
  induction l with
  | nil =>
    intro acc rest _
    simp [pyReadlinesAux]
  | cons c l ih =>
    intro acc rest h
    have hc : ¬ (c = '\n') := h c (by simp)
    have hrec := ih (c :: acc) rest (fun x hx => h x (by simp [hx]))
    simp only [List.cons_append, pyReadlinesAux, if_neg hc, List.append_eq]
    rw [hrec]
    simp

/-- A complete line decomposes as its newline-free body followed by the
newline character. -/
theorem lineComplete_decomp (l : List Char) (h : lineComplete l = true) :
    (∀ c ∈ l.dropLast, c ≠ '\n') ∧ l = l.dropLast ++ ['\n'] := by
  simp only [lineComplete, Bool.and_eq_true, List.all_eq_true, decide_eq_true_eq,
    beq_iff_eq, Bool.not_eq_true'] at h
  obtain ⟨⟨hne, hlast⟩, hbody⟩ := h
  have hne' : l ≠ [] := by
    intro hnil
    rw [hnil] at hne
    simp at hne
  refine ⟨hbody, ?_⟩
  have hlast' : l.getLast hne' = '\n' := by
    have hq := List.getLast?_eq_getLast l hne'
    rw [hq] at hlast
    exact Option.some.inj hlast
  conv_lhs => rw [← List.dropLast_append_getLast hne']
  rw [hlast']

/-- `readlines` recovers the original list of lines from the flattened file
content, when every line is complete (newline-terminated, no internal
newline). -/
theorem pyReadlines_flatten (L : List (List Char))
    (hL : ∀ l ∈ L, lineComplete l = true) :
    pyReadlines L.flatten = L := by
  induction L with
  | nil => rfl
  | cons l L ih =>
    obtain ⟨hbody, hdec⟩ := lineComplete_decomp l (hL l (by simp))
    have ih' := ih (fun x hx => hL x (by simp [hx]))
    rw [List.flatten_cons]
    conv_lhs => rw [hdec]
    rw [List.append_assoc, List.singleton_append]
    unfold pyReadlines at ih' ⊢
    rw [pyReadlinesAux_newline l.dropLast [] L.flatten hbody, ih']
    simp only [List.reverse_nil, List.nil_append]
    rw [← hdec]

/-- **C5.**  For a log file made of complete lines, the tail operation with
window `n` returns exactly the last `n` lines in original file order (all of
them when there are fewer than `n`), its result has length `min n (number of
lines)`, and the body served by `serve_logs` is the join of the last 100
lines. -/
theorem tail_correct (L : List (List Char)) (n : Nat)
    (hL : ∀ l ∈ L, lineComplete l = true) :
    tailLines L.flatten n = L.drop (L.length - n) ∧
    (L.length ≤ n → tailLines L.flatten n = L) ∧
    (tailLines L.flatten n).length = min n L.length ∧
    (serve_logs (some L.flatten)).body = (L.drop (L.length - 100)).flatten := by
  have h := pyReadlines_flatten L hL
  have htail : ∀ m : Nat, tailLines L.flatten m = L.drop (L.length - m) := by
    intro m
    show (pyReadlines L.flatten).drop ((pyReadlines L.flatten).length - m) = _
    rw [h]
  refine ⟨htail n, ?_, ?_, ?_⟩
  · intro hle
    rw [htail n, Nat.sub_eq_zero_of_le hle, List.drop_zero]
  · rw [htail n, List.length_drop]
    omega
  · show (tailLines L.flatten 100).flatten = _
    rw [htail 100]

/-- A concrete 250-line log file: line `i` (1-based) is the decimal numeral
of `i` followed by a newline. -/
def file250 : List (List Char) :=
  (List.range 250).map (fun i => Nat.toDigits 10 (i + 1) ++ ['\n'])

set_option maxRecDepth 100000 in
/-- Witness for C5: on the 250-line file, every line is complete and the tail
with window 100 is exactly lines 151 through 250 in original order. -/
theorem tail_correct_witness :
    (∀ l ∈ file250, lineComplete l = true) ∧
    tailLines file250.flatten 100 = file250.drop 150 := by
  refine ⟨by decide, ?_⟩
  have h := (tail_correct file250 100 (by decide)).1
  have hlen : file250.length - 100 = 150 := by decide
  rw [h, hlen]

/-- Witness for C9: a task with one subtask rolls up identically whether its
own status is `complete` or absent. -/
theorem getTaskStatus_ignores_own_status_witness :
    getTaskStatus { id := 1, name := "A", status := some Status.complete,
                    subtasks := some [⟨1, "x", none⟩] } =
    getTaskStatus { id := 1, name := "A", status := none,
                    subtasks := some [⟨1, "x", none⟩] } :=
  getTaskStatus_ignores_own_status
    { id := 1, name := "A", status := none, subtasks := some [⟨1, "x", none⟩] }
    [⟨1, "x", none⟩] rfl (by decide) (some Status.complete) none

end Monitor
